import Mathlib

/-!
Verification of the juju excerpt: the in-memory controller cache
(core/cache), the resource persistence layer (resource/persistence) and
the machiner API facade (apiserver/facades/agent/machine).

Pure data and control flow are embedded shallowly: Go structs become
structures, fallible calls return Except, and the per-entity mutex of
`Charm` is reflected as an explicit event trace recording lock, write,
unlock and publish steps.
-/

set_option autoImplicit false

namespace JujuSpec

/-! ## Controller cache: entity snapshots (core/cache/charm.go) -/

/-- Modelled from the spec: the field payload carried by a charm change
record.  The concrete field set of `CharmChange` is not part of the
excerpt; per the spec the field set of each entity kind is
configuration, so we model the two fields exercised by the spec's
scenario (charm URL and revision). -/
structure CharmChange where
  charmURL : String
  revision : Nat
deriving DecidableEq, Repr

/-- The `Charm` entity snapshot from core/cache/charm.go.  The Go struct
also holds references to the shared metrics gauges and the pubsub hub
and its own `sync.Mutex`; those are collaborator references and the
lock, which we model separately as an event trace. -/
structure Charm where
  details : CharmChange
deriving DecidableEq, Repr

/-- `Charm.setDetails` from core/cache/charm.go: under the charm's own
mutex, replace the details with the supplied change. -/
def Charm.setDetails (c : Charm) (details : CharmChange) : Charm :=
  { c with details := details }

/-- Events emitted while an entity store operates on a snapshot:
acquiring and releasing the snapshot's own guard, writing its fields,
and publishing to the notification hub. -/
inductive StoreEvent (κ ν : Type) where
  | lock (i : κ)
  | write (i : κ) (fields : ν)
  | unlock (i : κ)
  | publish (topic : String) (i : κ) (payload : ν)
deriving DecidableEq

/-- The entity a store event touches. -/
def eventOwner {κ ν : Type} : StoreEvent κ ν → κ
  | .lock i => i
  | .write i _ => i
  | .unlock i => i
  | .publish _ i _ => i

/-- Whether an event is a hub publication. -/
def isPublish {κ ν : Type} : StoreEvent κ ν → Bool
  | .publish _ _ _ => true
  | _ => false

/-- The event trace of `Charm.setDetails` in core/cache/charm.go:
`c.mu.Lock()`, `c.details = details`, `c.mu.Unlock()` — all on the
snapshot's own guard, nothing else touched. -/
def setDetailsEvents {κ ν : Type} (i : κ) (f : ν) : List (StoreEvent κ ν) :=
  [.lock i, .write i f, .unlock i]

/-! ## Entity store contents, modelled as association lists -/

/-- Modelled from the spec: `get(identity)` of an entity store — the
current field values for the identity, or a not-found signal. -/
def getEntry {κ ν : Type} [DecidableEq κ] : List (κ × ν) → κ → Option ν
  | [], _ => none
  | (k, v) :: rest, i => if k = i then some v else getEntry rest i

/-- Modelled from the spec: the state change of `upsert(identity,
fields)` — create the snapshot if absent, else update the existing
snapshot in place (single instance per identity, no duplicate). -/
def upsertEntries {κ ν : Type} [DecidableEq κ] : List (κ × ν) → κ → ν → List (κ × ν)
  | [], i, f => [(i, f)]
  | (k, v) :: rest, i, f =>
    if k = i then (i, f) :: rest else (k, v) :: upsertEntries rest i f

/-- Modelled from the spec: the state change of `remove(identity)` —
delete the snapshot if present, idempotent. -/
def removeEntries {κ ν : Type} [DecidableEq κ] (l : List (κ × ν)) (i : κ) : List (κ × ν) :=
  l.filter (fun q => decide (q.1 ≠ i))

/-- Modelled from the spec: the event trace of `upsert` — the guarded
mutation of `Charm.setDetails`, then an "updated" notification carrying
the identity and new field snapshot, published after the lock is
released. -/
def upsertEvents {κ ν : Type} (i : κ) (f : ν) : List (StoreEvent κ ν) :=
  setDetailsEvents i f ++ [.publish "updated" i f]

/-- Modelled from the spec: the event trace of `remove` — a "removed"
notification is published only if a snapshot actually existed. -/
def removeEvents {κ ν : Type} [DecidableEq κ] (l : List (κ × ν)) (i : κ) :
    List (StoreEvent κ ν) :=
  match getEntry l i with
  | some f => [.publish "removed" i f]
  | none => []

/-- Modelled from the spec: an entity store `upsert`, returning the new
store contents together with the emitted events. -/
def storeUpsert {κ ν : Type} [DecidableEq κ] (l : List (κ × ν)) (i : κ) (f : ν) :
    List (κ × ν) × List (StoreEvent κ ν) :=
  (upsertEntries l i f, upsertEvents i f)

/-- Modelled from the spec: an entity store `remove`, returning the new
store contents together with the emitted events. -/
def storeRemove {κ ν : Type} [DecidableEq κ] (l : List (κ × ν)) (i : κ) :
    List (κ × ν) × List (StoreEvent κ ν) :=
  (removeEntries l i, removeEvents l i)

/-! Helper lemmas about the association-list store. -/

theorem getEntry_upsertEntries_self {κ ν : Type} [DecidableEq κ]
    (l : List (κ × ν)) (i : κ) (f : ν) :
    getEntry (upsertEntries l i f) i = some f := by
  induction l with
  | nil => simp [upsertEntries, getEntry]
  | cons p rest ih =>
    obtain ⟨k, v⟩ := p
    by_cases hk : k = i
    · subst hk
      simp [upsertEntries, getEntry]
    · simp [upsertEntries, getEntry, hk, ih]

theorem length_upsertEntries_present {κ ν : Type} [DecidableEq κ]
    (l : List (κ × ν)) (i : κ) (f v : ν) (h : getEntry l i = some v) :
    (upsertEntries l i f).length = l.length := by
  induction l with
  | nil => simp [getEntry] at h
  | cons p rest ih =>
    obtain ⟨k, v'⟩ := p
    by_cases hk : k = i
    · simp [upsertEntries, hk]
    · simp only [getEntry, hk, if_false] at h
      simp [upsertEntries, hk, ih h]

theorem upsertEntries_idem {κ ν : Type} [DecidableEq κ]
    (l : List (κ × ν)) (i : κ) (f : ν) :
    upsertEntries (upsertEntries l i f) i f = upsertEntries l i f := by
  induction l with
  | nil => simp [upsertEntries]
  | cons p rest ih =>
    obtain ⟨k, v⟩ := p
    by_cases hk : k = i
    · simp [upsertEntries, hk]
    · simp [upsertEntries, hk, ih]

theorem getEntry_removeEntries_self {κ ν : Type} [DecidableEq κ]
    (l : List (κ × ν)) (i : κ) :
    getEntry (removeEntries l i) i = none := by
  induction l with
  | nil => rfl
  | cons p rest ih =>
    obtain ⟨k, v⟩ := p
    by_cases hk : k = i
    · simpa [removeEntries, List.filter_cons, hk] using ih
    · simpa [removeEntries, List.filter_cons, hk, getEntry] using ih

theorem removeEntries_absent {κ ν : Type} [DecidableEq κ]
    (l : List (κ × ν)) (i : κ) (h : getEntry l i = none) :
    removeEntries l i = l := by
  induction l with
  | nil => rfl
  | cons p rest ih =>
    obtain ⟨k, v⟩ := p
    by_cases hk : k = i
    · simp [getEntry, hk] at h
    · simp only [getEntry, hk, if_false] at h
      simp [removeEntries, List.filter_cons, hk] at ih ⊢
      exact ih h

theorem removeEntries_idem {κ ν : Type} [DecidableEq κ]
    (l : List (κ × ν)) (i : κ) :
    removeEntries (removeEntries l i) i = removeEntries l i := by
  simp [removeEntries, List.filter_filter]

theorem mem_removeEntries {κ ν : Type} [DecidableEq κ]
    (l : List (κ × ν)) (i : κ) (p : κ × ν) :
    p ∈ removeEntries l i ↔ p ∈ l ∧ p.1 ≠ i := by
  simp [removeEntries, List.mem_filter]

/-! ## Controller cache aggregate -/

/-- Modelled from the spec: an identity is a composite key; entities
other than models are scoped under a model, so we carry the owning
model UUID in the identity. -/
structure EntityId where
  modelUUID : String
  name : String
deriving DecidableEq, Repr

/-- Modelled from the spec: each entity kind's field set is treated as
configuration, so a snapshot's fields are a plain field-name/value
association. -/
abbrev Fields := List (String × String)

/-- Modelled from the spec: the Controller Cache owns one entity store
per kind (Model, Application, Machine, Unit, Charm). -/
structure ControllerCache where
  models : List (EntityId × Fields)
  applications : List (EntityId × Fields)
  machines : List (EntityId × Fields)
  units : List (EntityId × Fields)
  charms : List (EntityId × Fields)
deriving DecidableEq

/-- Modelled from the spec: a Change Record either carries a field-set
update or a deletion marker. -/
inductive ChangeOp where
  | upsert (fields : Fields)
  | remove
deriving DecidableEq

/-- Modelled from the spec: an immutable Change Record — entity kind,
identity and the operation. -/
structure ChangeRecord where
  kind : String
  id : EntityId
  op : ChangeOp
deriving DecidableEq

/-- Modelled from the spec: the cache error taxonomy visible to
`applyChange`. -/
inductive CacheError where
  | unknownKind (kind : String)
deriving DecidableEq

/-- The entity kinds with a registered store. -/
def registeredKinds : List String :=
  ["model", "application", "machine", "unit", "charm"]

/-- Apply a change record to a single store's contents. -/
def applyToStore (entries : List (EntityId × Fields)) (r : ChangeRecord) :
    List (EntityId × Fields) :=
  match r.op with
  | .upsert f => upsertEntries entries r.id f
  | .remove => removeEntries entries r.id

/-- The entries of a store scoped under model `m` (the `list` accessor
restricted to `m`). -/
def listScoped (entries : List (EntityId × Fields)) (m : String) :
    List (EntityId × Fields) :=
  entries.filter (fun p => decide (p.1.modelUUID = m))

/-- Modelled from the spec: the identities for which the cache issues
synthetic removal records when model `m` is removed. -/
def scopedIds (entries : List (EntityId × Fields)) (m : String) : List EntityId :=
  (listScoped entries m).map Prod.fst

/-- Modelled from the spec: cascading removal — the cache removes, one
synthetic removal at a time, every entity of the store scoped under the
removed model. -/
def removeScoped (entries : List (EntityId × Fields)) (m : String) :
    List (EntityId × Fields) :=
  (scopedIds entries m).foldl removeEntries entries

/-- Modelled from the spec: `applyChange(record)` — dispatch on the
record's declared kind; removing a model cascades synthetic removals to
the dependent stores; an unregistered kind fails with `UnknownKind`. -/
def applyChange (c : ControllerCache) (r : ChangeRecord) :
    Except CacheError ControllerCache :=
  if r.kind = "model" then
    match r.op with
    | .upsert f => .ok { c with models := upsertEntries c.models r.id f }
    | .remove =>
      .ok { c with
        models := removeEntries c.models r.id
        applications := removeScoped c.applications r.id.modelUUID
        machines := removeScoped c.machines r.id.modelUUID
        units := removeScoped c.units r.id.modelUUID
        charms := removeScoped c.charms r.id.modelUUID }
  else if r.kind = "application" then
    .ok { c with applications := applyToStore c.applications r }
  else if r.kind = "machine" then
    .ok { c with machines := applyToStore c.machines r }
  else if r.kind = "unit" then
    .ok { c with units := applyToStore c.units r }
  else if r.kind = "charm" then
    .ok { c with charms := applyToStore c.charms r }
  else
    .error (.unknownKind r.kind)

/-- The cache state after delivering a record: a failing record leaves
the state unchanged. -/
def applyChangeState (c : ControllerCache) (r : ChangeRecord) : ControllerCache :=
  match applyChange c r with
  | .ok next => next
  | .error _ => c

/-- Modelled from the spec: process a stream of records; a record that
fails is dropped and reported, and processing continues with the
remaining records. -/
def processRecords (c : ControllerCache) :
    List ChangeRecord → ControllerCache × List (ChangeRecord × CacheError)
  | [] => (c, [])
  | r :: rest =>
    match applyChange c r with
    | .ok next => processRecords next rest
    | .error e => ((processRecords c rest).1, (r, e) :: (processRecords c rest).2)

/-! Helper lemmas about the aggregate. -/

theorem mem_foldl_removeEntries {κ ν : Type} [DecidableEq κ]
    (ids : List κ) (l : List (κ × ν)) (p : κ × ν) :
    p ∈ ids.foldl removeEntries l ↔ p ∈ l ∧ p.1 ∉ ids := by
  induction ids generalizing l with
  | nil => simp
  | cons i ids ih =>
    simp only [List.foldl_cons, ih, mem_removeEntries, List.mem_cons]
    constructor
    · rintro ⟨⟨hl, hne⟩, hnotin⟩
      refine ⟨hl, ?_⟩
      rintro (h | h)
      · exact hne h
      · exact hnotin h
    · rintro ⟨hl, hnot⟩
      exact ⟨⟨hl, fun h => hnot (Or.inl h)⟩, fun h => hnot (Or.inr h)⟩

theorem mem_removeScoped (l : List (EntityId × Fields)) (m : String)
    (p : EntityId × Fields) :
    p ∈ removeScoped l m ↔ p ∈ l ∧ p.1.modelUUID ≠ m := by
  rw [removeScoped, mem_foldl_removeEntries]
  constructor
  · rintro ⟨hl, hnot⟩
    refine ⟨hl, fun hm => hnot ?_⟩
    simp only [scopedIds, listScoped, List.mem_map, List.mem_filter]
    exact ⟨p, ⟨hl, by simp [hm]⟩, rfl⟩
  · rintro ⟨hl, hm⟩
    refine ⟨hl, fun hmem => hm ?_⟩
    simp only [scopedIds, listScoped, List.mem_map, List.mem_filter] at hmem
    obtain ⟨q, ⟨_, hq⟩, hfst⟩ := hmem
    rw [← hfst]
    exact of_decide_eq_true hq

theorem listScoped_removeScoped (l : List (EntityId × Fields)) (m : String) :
    listScoped (removeScoped l m) m = [] := by
  rw [listScoped, List.filter_eq_nil_iff]
  intro p hp
  rw [mem_removeScoped] at hp
  simp [hp.2]

theorem removeScoped_idem (l : List (EntityId × Fields)) (m : String) :
    removeScoped (removeScoped l m) m = removeScoped l m := by
  have h : scopedIds (removeScoped l m) m = [] := by
    rw [scopedIds, listScoped_removeScoped]
    rfl
  rw [removeScoped, h]
  rfl

/-! ## Mutex interleaving model for snapshot atomicity

A snapshot with two fields is mutated by a writer thread running the
shape of `Charm.setDetails` (lock, write the fields, unlock) while a
reader thread takes a guarded copy.  Schedules are arbitrary merges of
the two threads' event lists; a schedule is admissible when it respects
the mutex (a thread only acts while holding the guard, and a lock only
succeeds when the guard is free). -/

/-- An action of a thread on the shared snapshot. -/
inductive MemAct where
  | lock
  | unlock
  | write1 (v : Nat)
  | write2 (v : Nat)
  | read1
  | read2
deriving DecidableEq

/-- An event: which thread performs which action. -/
structure ThreadEv where
  thread : Bool
  act : MemAct
deriving DecidableEq

/-- Shared snapshot state (two fields) plus the reader's observations. -/
structure MemState where
  f1 : Nat
  f2 : Nat
  obs : List Nat
deriving DecidableEq

/-- Execute one event against the shared state. -/
def execEv (s : MemState) (e : ThreadEv) : MemState :=
  match e.act with
  | .lock => s
  | .unlock => s
  | .write1 v => { s with f1 := v }
  | .write2 v => { s with f2 := v }
  | .read1 => { s with obs := s.obs ++ [s.f1] }
  | .read2 => { s with obs := s.obs ++ [s.f2] }

/-- Execute a whole schedule. -/
def execTrace (s : MemState) (evs : List ThreadEv) : MemState :=
  evs.foldl execEv s

/-- Whether a schedule respects the mutex, given the current holder:
lock succeeds only when free, and every other action belongs to the
holder. -/
def mutexOK : Option Bool → List ThreadEv → Bool
  | _, [] => true
  | none, e :: rest =>
    match e.act with
    | .lock => mutexOK (some e.thread) rest
    | _ => false
  | some t, e :: rest =>
    match e.act with
    | .lock => false
    | .unlock => decide (e.thread = t) && mutexOK none rest
    | _ => decide (e.thread = t) && mutexOK (some t) rest

/-- Fuel-indexed worker for `merges`; the fuel is only there to make
the recursion structural, and is always sufficient when called through
`merges`. -/
def mergesFuel {α : Type} : Nat → List α → List α → List (List α)
  | _, [], ys => [ys]
  | _, x :: xs, [] => [x :: xs]
  | 0, _ :: _, _ :: _ => []
  | n + 1, x :: xs, y :: ys =>
    (mergesFuel n xs (y :: ys)).map (fun l => x :: l) ++
      (mergesFuel n (x :: xs) ys).map (fun l => y :: l)

/-- All interleavings of two event lists that keep each thread's own
order. -/
def merges {α : Type} (xs ys : List α) : List (List α) :=
  mergesFuel (xs.length + ys.length) xs ys

/-- The writer thread: the shape of `Charm.setDetails` with a two-field
snapshot — lock, write both fields, unlock. -/
def writerTrace (u r : Nat) : List ThreadEv :=
  [⟨true, .lock⟩, ⟨true, .write1 u⟩, ⟨true, .write2 r⟩, ⟨true, .unlock⟩]

/-- Modelled from the spec: the reader thread — `get` takes a defensive
copy of the fields under the snapshot's guard. -/
def readerTrace : List ThreadEv :=
  [⟨false, .lock⟩, ⟨false, .read1⟩, ⟨false, .read2⟩, ⟨false, .unlock⟩]

/-! ## Resource persistence (resource/persistence, part_000 + mongo.go) -/

/-- The outcome of `Resource.Validate()` for a resource value; the
validation logic itself lives outside the excerpt, so a resource is
summarized by what its `Validate` call returns (`none` = valid). -/
structure Resource where
  validateError : Option String
deriving DecidableEq

/-- `resource.ModelResource` — the argument of the persistence
operations. -/
structure ModelResource where
  ID : String
  PendingID : String
  ServiceID : String
  Res : Resource
  StoragePath : String
deriving DecidableEq

/-- `resourceID` from mongo.go: converts an external resource ID into
an internal one. -/
def resourceID (id subType subID : String) : String :=
  if subType = "" then "resource#" ++ id
  else "resource#" ++ id ++ "#" ++ subType ++ "-" ++ subID

/-- `serviceResourceID` from mongo.go. -/
def serviceResourceID (id : String) : String :=
  resourceID id "" ""

/-- `pendingResourceID` from mongo.go. -/
def pendingResourceID (id pendingID : String) : String :=
  resourceID id "pending" pendingID

/-- `unitResourceID` from mongo.go. -/
def unitResourceID (id unitID : String) : String :=
  resourceID id "unit" unitID

/-- `stagedIDSuffix` from mongo.go. -/
def stagedIDSuffix : String := "#staged"

/-- `stagedID` from mongo.go. -/
def stagedID (id : String) : String :=
  serviceResourceID id ++ stagedIDSuffix

/-- `resourceDoc` from mongo.go, keeping the identity fields; the
charm-resource payload columns are summarized by the `Res` value. -/
structure ResourceDoc where
  DocID : String
  ID : String
  PendingID : String
  ServiceID : String
  UnitID : String
  Res : Resource
  StoragePath : String
deriving DecidableEq

/-- `resource2doc` from mongo.go. -/
def resource2doc (id : String) (args : ModelResource) : ResourceDoc :=
  { DocID := id
    ID := args.ID
    PendingID := args.PendingID
    ServiceID := args.ServiceID
    UnitID := ""
    Res := args.Res
    StoragePath := args.StoragePath }

/-- `unitResource2Doc` from mongo.go. -/
def unitResource2Doc (id unitID : String) (args : ModelResource) : ResourceDoc :=
  { resource2doc id args with UnitID := unitID }

/-- `newUnitResourceDoc` from mongo.go. -/
def newUnitResourceDoc (unitID : String) (args : ModelResource) : ResourceDoc :=
  unitResource2Doc (unitResourceID args.ID unitID) unitID args

/-- `newResourceDoc` from mongo.go. -/
def newResourceDoc (args : ModelResource) : ResourceDoc :=
  if args.PendingID = "" then resource2doc (serviceResourceID args.ID) args
  else resource2doc (pendingResourceID args.ID args.PendingID) args

/-- `newStagedDoc` from mongo.go. -/
def newStagedDoc (args : ModelResource) : ResourceDoc :=
  resource2doc (stagedID args.ID) args

/-- A mongo/txn assertion on a document. -/
inductive TxnAssert where
  | free
  | docMissing
  | docExists
  | docEq (doc : ResourceDoc)
deriving DecidableEq

/-- A mongo/txn operation as built by mongo.go. -/
structure TxnOp where
  C : String
  Id : String
  Assert : TxnAssert
  Insert : Option ResourceDoc
  Remove : Bool
deriving DecidableEq

/-- `resourcesC` from mongo.go. -/
def resourcesC : String := "resources"

/-- `newStagedResourceOps` from mongo.go. -/
def newStagedResourceOps (args : ModelResource) : List TxnOp :=
  [{ C := resourcesC, Id := (newStagedDoc args).DocID, Assert := .docMissing
     Insert := some (newStagedDoc args), Remove := false }]

/-- `newEnsureStagedSameOps` from mongo.go. -/
def newEnsureStagedSameOps (args : ModelResource) : List TxnOp :=
  [{ C := resourcesC, Id := (newStagedDoc args).DocID
     Assert := .docEq (newStagedDoc args), Insert := none, Remove := false }]

/-- `newRemoveStagedOps` from mongo.go. -/
def newRemoveStagedOps (id : String) : List TxnOp :=
  [{ C := resourcesC, Id := stagedID id, Assert := .free
     Insert := none, Remove := true }]

/-- `newInsertUnitResourceOps` from mongo.go. -/
def newInsertUnitResourceOps (unitID : String) (args : ModelResource) : List TxnOp :=
  [{ C := resourcesC, Id := (newUnitResourceDoc unitID args).DocID
     Assert := .docMissing, Insert := some (newUnitResourceDoc unitID args)
     Remove := false }]

/-- `newInsertResourceOps` from mongo.go. -/
def newInsertResourceOps (args : ModelResource) : List TxnOp :=
  [{ C := resourcesC, Id := (newResourceDoc args).DocID
     Assert := .docMissing, Insert := some (newResourceDoc args), Remove := false }]

/-- `newUpdateUnitResourceOps` from mongo.go: remove-then-insert. -/
def newUpdateUnitResourceOps (unitID : String) (args : ModelResource) : List TxnOp :=
  { C := resourcesC, Id := (newUnitResourceDoc unitID args).DocID
    Assert := .docExists, Insert := none, Remove := true }
    :: newInsertUnitResourceOps unitID args

/-- `newUpdateResourceOps` from mongo.go: remove-then-insert. -/
def newUpdateResourceOps (args : ModelResource) : List TxnOp :=
  { C := resourcesC, Id := (newResourceDoc args).DocID
    Assert := .docExists, Insert := none, Remove := true }
    :: newInsertResourceOps args

/-- `Persistence` wraps the transaction runner of the backing store.
The runner is state-passing over an abstract database state: it
receives the transaction-source function (indexed by attempt number)
and yields the next database state and an outcome. -/
structure Persistence (σ : Type) where
  run : σ → (Nat → Except String (List TxnOp)) → σ × Except String Unit

/-- `errors.Annotate(err, msg)` — prepends the annotation to the error
message. -/
def annotate (msg err : String) : String := msg ++ ": " ++ err

/-- The transaction source built by `Persistence.StageResource`:
attempt 0 inserts the staged doc, attempt 1 asserts it is unchanged,
later attempts fail with "already staged". -/
def stageResourceSource (args : ModelResource) (attempt : Nat) :
    Except String (List TxnOp) :=
  match attempt with
  | 0 => .ok (newStagedResourceOps args)
  | 1 => .ok (newEnsureStagedSameOps args)
  | _ => .error "already staged"

/-- The transaction source built by `Persistence.SetUnitResource`:
attempt 0 inserts, attempt 1 updates, later attempts fail. -/
def setUnitResourceSource (unitID : String) (args : ModelResource) (attempt : Nat) :
    Except String (List TxnOp) :=
  match attempt with
  | 0 => .ok (newInsertUnitResourceOps unitID args)
  | 1 => .ok (newUpdateUnitResourceOps unitID args)
  | _ => .error "setting the resource failed"

/-- The transaction source built by `Persistence.SetResource`: attempt
0 inserts, attempt 1 updates, later attempts fail; every attempt also
removes any staging. -/
def setResourceSource (args : ModelResource) (attempt : Nat) :
    Except String (List TxnOp) :=
  match attempt with
  | 0 => .ok (newInsertResourceOps args ++ newRemoveStagedOps args.ID)
  | 1 => .ok (newUpdateResourceOps args ++ newRemoveStagedOps args.ID)
  | _ => .error "setting the resource failed"

/-- `Persistence.StageResource` from part_000: validate the resource
(returning a "bad resource" annotation without running any
transaction on failure), then run the staging transaction. -/
def Persistence.StageResource {σ : Type} (p : Persistence σ) (db : σ)
    (args : ModelResource) : σ × Except String Unit :=
  match args.Res.validateError with
  | some e => (db, .error (annotate "bad resource" e))
  | none =>
    match p.run db (stageResourceSource args) with
    | (db2, .error e) => (db2, .error e)
    | (db2, .ok _) => (db2, .ok ())

/-- `Persistence.UnstageResource` from part_000: remove any staging;
a missing staging is a no-op. -/
def Persistence.UnstageResource {σ : Type} (p : Persistence σ) (db : σ)
    (id : String) : σ × Except String Unit :=
  match p.run db (fun attempt =>
      if attempt > 0 then .error "unstaging the resource failed"
      else .ok (newRemoveStagedOps id)) with
  | (db2, .error e) => (db2, .error e)
  | (db2, .ok _) => (db2, .ok ())

/-- `Persistence.SetUnitResource` from part_000: validate the resource
(returning a "bad resource" annotation without running any transaction
on failure), then run the unit-resource upsert transaction. -/
def Persistence.SetUnitResource {σ : Type} (p : Persistence σ) (db : σ)
    (unitID : String) (args : ModelResource) : σ × Except String Unit :=
  match args.Res.validateError with
  | some e => (db, .error (annotate "bad resource" e))
  | none =>
    match p.run db (setUnitResourceSource unitID args) with
    | (db2, .error e) => (db2, .error e)
    | (db2, .ok _) => (db2, .ok ())

/-- `Persistence.SetResource` from part_000: validate the resource
(returning a "bad resource" annotation without running any transaction
on failure), then run the resource upsert transaction. -/
def Persistence.SetResource {σ : Type} (p : Persistence σ) (db : σ)
    (args : ModelResource) : σ × Except String Unit :=
  match args.Res.validateError with
  | some e => (db, .error (annotate "bad resource" e))
  | none =>
    match p.run db (setResourceSource args) with
    | (db2, .error e) => (db2, .error e)
    | (db2, .ok _) => (db2, .ok ())

/-! ## Machiner API facade (apiserver/facades/agent/machine/machiner.go) -/

/-- Errors surfaced by the machiner facade; `errPerm` is
`apiservererrors.ErrPerm`, the rest stand for errors produced by the
state layer (`FindEntity`, address conversion, machine mutations). -/
inductive JujuError where
  | errPerm
  | notFound (tag : String)
  | other (msg : String)
deriving DecidableEq

/-- A parsed machine tag (the machine id carried by a
`names.MachineTag`). -/
abbrev MachineTag := String

/-- A machine job name as rendered into the params layer by
`job.ToParams()`. -/
abbrev MachineJob := String

/-- A `state.Machine` as far as the machiner facade observes it: its
jobs and the outcomes of the two mutations the facade can request. -/
structure Machine where
  jobs : List MachineJob
  setAddresses : List String → Option JujuError
  recordAgentStartTime : Option JujuError

/-- One element of `params.SetMachinesAddresses.MachineAddresses`. -/
structure MachineAddressArg where
  Tag : String
  Addresses : List String

/-- The machiner API together with its collaborators: the tag parser
(`names.ParseMachineTag`), the authorizer's `AuthOwner` check, the
state's `FindEntity`, and the provider-to-space address conversion. -/
structure MachinerAPI where
  parseMachineTag : String → Option MachineTag
  authOwner : MachineTag → Bool
  findEntity : MachineTag → Except JujuError Machine
  toSpaceAddresses : List String → Except JujuError (List String)

/-- `getCanModify` as installed by `NewMachinerAPI`: it always succeeds
and yields the authorizer's `AuthOwner`. -/
def MachinerAPI.getCanModify (api : MachinerAPI) :
    Except JujuError (MachineTag → Bool) :=
  .ok api.authOwner

/-- `getCanRead` as installed by `NewMachinerAPI`: it always succeeds
and yields the authorizer's `AuthOwner`. -/
def MachinerAPI.getCanRead (api : MachinerAPI) :
    Except JujuError (MachineTag → Bool) :=
  .ok api.authOwner

/-- `MachinerAPI.getMachine`: an unparseable tag or a failing
authorization check yields `ErrPerm`; otherwise the entity lookup's own
outcome is returned. -/
def MachinerAPI.getMachine (api : MachinerAPI) (tag : String)
    (authChecker : MachineTag → Bool) : Except JujuError Machine :=
  match api.parseMachineTag tag with
  | none => .error .errPerm
  | some mtag =>
    if ¬ authChecker mtag then .error .errPerm
    else api.findEntity mtag

/-- The per-entity body of the `SetMachineAddresses` loop: get the
machine, convert the addresses, apply them; the first failure lands in
this entity's result slot. -/
def setMachineAddressesSlot (api : MachinerAPI) (canModify : MachineTag → Bool)
    (arg : MachineAddressArg) : Option JujuError :=
  match api.getMachine arg.Tag canModify with
  | .error e => some e
  | .ok m =>
    match api.toSpaceAddresses arg.Addresses with
    | .error e => some e
    | .ok addresses => m.setAddresses addresses

/-- `MachinerAPI.SetMachineAddresses`: a result slot per supplied
entity (`none` = success), plus the method-level error (only a failing
`getCanModify` produces one). -/
def MachinerAPI.SetMachineAddresses (api : MachinerAPI)
    (args : List MachineAddressArg) :
    List (Option JujuError) × Option JujuError :=
  match api.getCanModify with
  | .error e => (List.replicate args.length none, some e)
  | .ok canModify => (args.map (setMachineAddressesSlot api canModify), none)

/-- One `params.JobsResult`: the machine's jobs, or this entity's
error. -/
structure JobsResult where
  jobs : List MachineJob
  err : Option JujuError
deriving DecidableEq

/-- The per-entity body of the `Jobs` loop. -/
def jobsSlot (api : MachinerAPI) (canRead : MachineTag → Bool)
    (tag : String) : JobsResult :=
  match api.getMachine tag canRead with
  | .error e => { jobs := [], err := some e }
  | .ok m => { jobs := m.jobs.map (fun j => j), err := none }

/-- `MachinerAPI.Jobs`: a `JobsResult` per supplied entity, plus the
method-level error (only a failing `getCanRead` produces one). -/
def MachinerAPI.Jobs (api : MachinerAPI) (args : List String) :
    List JobsResult × Option JujuError :=
  match api.getCanRead with
  | .error e => (List.replicate args.length { jobs := [], err := none }, some e)
  | .ok canRead => (args.map (jobsSlot api canRead), none)

/-- The per-entity body of the `RecordAgentStartTime` loop. -/
def recordAgentStartTimeSlot (api : MachinerAPI) (canModify : MachineTag → Bool)
    (tag : String) : Option JujuError :=
  match api.getMachine tag canModify with
  | .error e => some e
  | .ok m => m.recordAgentStartTime

/-- `MachinerAPI.RecordAgentStartTime`: a result slot per supplied
entity (`none` = success), plus the method-level error (only a failing
`getCanModify` produces one). -/
def MachinerAPI.RecordAgentStartTime (api : MachinerAPI) (args : List String) :
    List (Option JujuError) × Option JujuError :=
  match api.getCanModify with
  | .error e => (List.replicate args.length none, some e)
  | .ok canModify => (args.map (recordAgentStartTimeSlot api canModify), none)

/-- The permission-denied condition of claim C10 for one supplied tag:
the tag does not parse as a machine tag, or it parses but the
authorization check rejects it. -/
def permDenied (api : MachinerAPI) (tag : String) : Prop :=
  ∀ t, api.parseMachineTag tag = some t → api.authOwner t = false

theorem getMachine_permDenied (api : MachinerAPI) (tag : String)
    (h : permDenied api tag) :
    api.getMachine tag api.authOwner = .error .errPerm := by
  unfold MachinerAPI.getMachine
  cases hp : api.parseMachineTag tag with
  | none => rfl
  | some t => simp [h t hp]

/-! ## Claim theorems -/

/-- Claim C1: for every identity `i` and field-set `f`, `upsert(i, f)`
followed by `get(i)` returns fields equal to `f`, whether or not a
snapshot for `i` existed before; at the source level `Charm.setDetails`
leaves exactly the supplied details in the snapshot. -/
theorem upsert_then_get (l : List (String × CharmChange)) (i : String)
    (f : CharmChange) (c : Charm) :
    getEntry (storeUpsert l i f).1 i = some f
      ∧ (Charm.setDetails c f).details = f :=
  ⟨getEntry_upsertEntries_self l i f, rfl⟩

/-- Claim C2: upserting an identity that already has a snapshot updates
the existing snapshot — `get` afterwards returns the new fields while
the store keeps a single instance per identity (unchanged length, no
duplicate) — and the field write sits strictly between acquiring and
releasing the snapshot's own lock in the event trace. -/
theorem upsert_existing_merges (l : List (String × CharmChange)) (i : String)
    (f v : CharmChange) (h : getEntry l i = some v) :
    getEntry (storeUpsert l i f).1 i = some f
    ∧ (storeUpsert l i f).1.length = l.length
    ∧ (storeUpsert l i f).2.get? 0 = some (.lock i)
    ∧ (storeUpsert l i f).2.get? 1 = some (.write i f)
    ∧ (storeUpsert l i f).2.get? 2 = some (.unlock i) :=
  ⟨getEntry_upsertEntries_self l i f, length_upsertEntries_present l i f v h,
    rfl, rfl, rfl⟩

/-- Witness for C2: the spec's scenario — charm `ch1` at revision 3,
upserted with revision 4, reads back as revision 4. -/
theorem upsert_existing_merges_witness :
    getEntry (storeUpsert [("ch1", (⟨"cs:db2-5", 3⟩ : CharmChange))] "ch1"
        ⟨"cs:db2-5", 4⟩).1 "ch1" = some ⟨"cs:db2-5", 4⟩ :=
  (upsert_existing_merges [("ch1", ⟨"cs:db2-5", 3⟩)] "ch1" ⟨"cs:db2-5", 4⟩
      ⟨"cs:db2-5", 3⟩ rfl).1

/-- Claim C3: every upsert publishes exactly one "updated" notification
carrying the identity and the new field snapshot, and that publication
sits strictly after the release of the snapshot's lock: the unlock is
at position 2 of the trace, and every publish event is at position 3. -/
theorem upsert_publishes_after_unlock (l : List (String × CharmChange))
    (i : String) (f : CharmChange) :
    (storeUpsert l i f).2.filter isPublish = [.publish "updated" i f]
    ∧ (storeUpsert l i f).2.get? 2 = some (.unlock i)
    ∧ (storeUpsert l i f).2.get? 3 = some (.publish "updated" i f)
    ∧ ∀ j e, (storeUpsert l i f).2.get? j = some e → isPublish e = true → j = 3 := by
  refine ⟨rfl, rfl, rfl, ?_⟩
  intro j e hj he
  match j with
  | 0 => cases Option.some.inj hj; simp [isPublish] at he
  | 1 => cases Option.some.inj hj; simp [isPublish] at he
  | 2 => cases Option.some.inj hj; simp [isPublish] at he
  | 3 => rfl
  | n + 4 => exact absurd hj (by simp [storeUpsert, upsertEvents, setDetailsEvents])

/-- Claim C4: applying the same change record twice in succession
yields exactly the same cache state as applying it once; at the source
level, `Charm.setDetails` is likewise idempotent. -/
theorem applyChange_idempotent (c : ControllerCache) (r : ChangeRecord)
    (ch : Charm) (d : CharmChange) :
    applyChangeState (applyChangeState c r) r = applyChangeState c r
    ∧ Charm.setDetails (Charm.setDetails ch d) d = Charm.setDetails ch d := by
  refine ⟨?_, rfl⟩
  by_cases h1 : r.kind = "model"
  · cases hop : r.op with
    | upsert f =>
      simp [applyChangeState, applyChange, h1, hop, upsertEntries_idem]
    | remove =>
      simp [applyChangeState, applyChange, h1, hop, removeEntries_idem,
        removeScoped_idem]
  · by_cases h2 : r.kind = "application"
    · cases hop : r.op with
      | upsert f =>
        simp [applyChangeState, applyChange, applyToStore, h1, h2, hop,
          upsertEntries_idem]
      | remove =>
        simp [applyChangeState, applyChange, applyToStore, h1, h2, hop,
          removeEntries_idem]
    · by_cases h3 : r.kind = "machine"
      · cases hop : r.op with
        | upsert f =>
          simp [applyChangeState, applyChange, applyToStore, h1, h2, h3, hop,
            upsertEntries_idem]
        | remove =>
          simp [applyChangeState, applyChange, applyToStore, h1, h2, h3, hop,
            removeEntries_idem]
      · by_cases h4 : r.kind = "unit"
        · cases hop : r.op with
          | upsert f =>
            simp [applyChangeState, applyChange, applyToStore, h1, h2, h3, h4,
              hop, upsertEntries_idem]
          | remove =>
            simp [applyChangeState, applyChange, applyToStore, h1, h2, h3, h4,
              hop, removeEntries_idem]
        · by_cases h5 : r.kind = "charm"
          · cases hop : r.op with
            | upsert f =>
              simp [applyChangeState, applyChange, applyToStore, h1, h2, h3,
                h4, h5, hop, upsertEntries_idem]
            | remove =>
              simp [applyChangeState, applyChange, applyToStore, h1, h2, h3,
                h4, h5, hop, removeEntries_idem]
          · simp [applyChangeState, applyChange, h1, h2, h3, h4, h5]

/-- Claim C5: `remove(i)` always succeeds and a subsequent `get(i)`
reports not-found; removing an absent identity is a no-op that
publishes nothing; a "removed" notification is published exactly when a
snapshot existed; and repeating the removal is a no-op with no
notification. -/
theorem remove_idempotent_notfound (l : List (String × CharmChange)) (i : String) :
    getEntry (storeRemove l i).1 i = none
    ∧ (getEntry l i = none → storeRemove l i = (l, []))
    ∧ (∀ f, getEntry l i = some f →
        (storeRemove l i).2 = [.publish "removed" i f])
    ∧ storeRemove (storeRemove l i).1 i = ((storeRemove l i).1, []) := by
  refine ⟨getEntry_removeEntries_self l i, ?_, ?_, ?_⟩
  · intro h
    simp [storeRemove, removeEntries_absent l i h, removeEvents, h]
  · intro f hf
    simp [storeRemove, removeEvents, hf]
  · have hnone : getEntry (removeEntries l i) i = none :=
      getEntry_removeEntries_self l i
    simp [storeRemove, removeEntries_absent (removeEntries l i) i hnone,
      removeEvents, hnone]

/-- Witness for C5: removing charm `ch1` then reading it back reports
not-found, and the removal of the present snapshot publishes the
"removed" notification. -/
theorem remove_idempotent_notfound_witness :
    getEntry (storeRemove [("ch1", (⟨"cs:db2-5", 3⟩ : CharmChange))] "ch1").1 "ch1" = none
    ∧ (storeRemove [("ch1", (⟨"cs:db2-5", 3⟩ : CharmChange))] "ch1").2
        = [.publish "removed" "ch1" ⟨"cs:db2-5", 3⟩] :=
  ⟨(remove_idempotent_notfound [("ch1", ⟨"cs:db2-5", 3⟩)] "ch1").1,
    (remove_idempotent_notfound [("ch1", ⟨"cs:db2-5", 3⟩)] "ch1").2.2.1
      ⟨"cs:db2-5", 3⟩ rfl⟩

/-- Claim C6: a change record whose declared kind has no registered
store fails with `UnknownKind`, leaves the cache state unchanged, and
is dropped and reported while processing continues with the remaining
records. -/
theorem applyChange_unknown_kind (c : ControllerCache) (r : ChangeRecord)
    (rest : List ChangeRecord) (h : r.kind ∉ registeredKinds) :
    applyChange c r = .error (.unknownKind r.kind)
    ∧ applyChangeState c r = c
    ∧ processRecords c (r :: rest)
        = ((processRecords c rest).1,
            (r, .unknownKind r.kind) :: (processRecords c rest).2) := by
  have h' := h
  simp only [registeredKinds, List.mem_cons, List.not_mem_nil, or_false,
    not_or] at h'
  obtain ⟨h1, h2, h3, h4, h5⟩ := h'
  have he : applyChange c r = .error (.unknownKind r.kind) := by
    simp [applyChange, h1, h2, h3, h4, h5]
  exact ⟨he, by simp [applyChangeState, he], by simp [processRecords, he]⟩

/-- Witness for C6: a "volume" record has no registered store and is
rejected with UnknownKind. -/
theorem applyChange_unknown_kind_witness :
    applyChange ⟨[], [], [], [], []⟩ ⟨"volume", ⟨"m0", "v1"⟩, .remove⟩
      = .error (.unknownKind "volume") :=
  (applyChange_unknown_kind ⟨[], [], [], [], []⟩ ⟨"volume", ⟨"m0", "v1"⟩, .remove⟩
      [] (by decide)).1

/-- Claim C7: after the cache processes a removal of model `M`, no
entity scoped under `M` survives: the model snapshot is gone and the
application, machine, unit and charm stores restricted to `M`'s scope
list empty — the cascade being the cache's synthetic removal of every
scoped identity. -/
theorem model_removal_cascades (c : ControllerCache) (mid : EntityId) :
    getEntry (applyChangeState c ⟨"model", mid, .remove⟩).models mid = none
    ∧ listScoped (applyChangeState c ⟨"model", mid, .remove⟩).applications
        mid.modelUUID = []
    ∧ listScoped (applyChangeState c ⟨"model", mid, .remove⟩).machines
        mid.modelUUID = []
    ∧ listScoped (applyChangeState c ⟨"model", mid, .remove⟩).units
        mid.modelUUID = []
    ∧ listScoped (applyChangeState c ⟨"model", mid, .remove⟩).charms
        mid.modelUUID = [] := by
  refine ⟨?_, ?_, ?_, ?_, ?_⟩ <;>
    simp [applyChangeState, applyChange, listScoped_removeScoped,
      getEntry_removeEntries_self]

/-- Claim C8: snapshot mutation is guarded by the snapshot's own
exclusion guard: in the `setDetails` trace the field write sits
strictly between the lock and unlock of entity `i`'s guard, and no
event touches any other entity (so mutating one entity never contends
with an unrelated one).  Moreover, over every mutex-respecting
interleaving of such a guarded writer with a guarded reader of a
two-field snapshot, the reader observes either the old snapshot or the
new snapshot in full — never a partially-updated mix. -/
theorem snapshot_mutation_guarded (i : String) (f : CharmChange) :
    (setDetailsEvents i f).get? 0 = some (.lock i)
    ∧ (setDetailsEvents i f).get? 1 = some (.write i f)
    ∧ (setDetailsEvents i f).get? 2 = some (.unlock i)
    ∧ (∀ e ∈ setDetailsEvents i f, eventOwner e = i)
    ∧ (∀ s ∈ merges (writerTrace 30 40) readerTrace, mutexOK none s = true →
        (execTrace ⟨10, 20, []⟩ s).obs = [10, 20]
        ∨ (execTrace ⟨10, 20, []⟩ s).obs = [30, 40]) := by
  refine ⟨rfl, rfl, rfl, ?_, by decide⟩
  intro e he
  simp only [setDetailsEvents, List.mem_cons, List.not_mem_nil, or_false] at he
  rcases he with h | h | h <;> subst h <;> rfl

/-- Claim C9: when the nested resource fails validation, StageResource,
SetResource and SetUnitResource return an error annotated "bad
resource" and leave the database state untouched — the transaction
runner is never consulted, as the result is the same for every possible
runner. -/
theorem persistence_bad_resource {σ : Type} (p : Persistence σ) (db : σ)
    (unitID : String) (args : ModelResource) (e : String)
    (h : args.Res.validateError = some e) :
    p.StageResource db args = (db, .error ("bad resource: " ++ e))
    ∧ p.SetResource db args = (db, .error ("bad resource: " ++ e))
    ∧ p.SetUnitResource db unitID args = (db, .error ("bad resource: " ++ e)) := by
  refine ⟨?_, ?_, ?_⟩ <;>
    simp [Persistence.StageResource, Persistence.SetResource,
      Persistence.SetUnitResource, h, annotate]

/-- Witness for C9: a resource whose validation fails with "boom" is
rejected by StageResource with the annotated error, on a runner that
would have changed the state had it been run. -/
theorem persistence_bad_resource_witness :
    Persistence.StageResource ⟨fun db _ => (db + 1, Except.ok ())⟩ (0 : Nat)
        ⟨"res1", "", "svc", ⟨some "boom"⟩, "path"⟩
      = (0, .error ("bad resource: " ++ "boom")) :=
  (persistence_bad_resource ⟨fun db _ => (db + 1, Except.ok ())⟩ 0 "unit-0"
      ⟨"res1", "", "svc", ⟨some "boom"⟩, "path"⟩ "boom" rfl).1

/-- Claim C10: SetMachineAddresses, Jobs and RecordAgentStartTime
return one result slot per supplied entity; an entity whose tag fails
to parse or fails the authorization check gets ErrPerm recorded in its
own slot only, and every other entity's slot is still computed from
that entity alone. -/
theorem machiner_per_entity_results (api : MachinerAPI)
    (argsA : List MachineAddressArg) (argsJ argsR : List String) :
    (api.SetMachineAddresses argsA).1.length = argsA.length
    ∧ (api.Jobs argsJ).1.length = argsJ.length
    ∧ (api.RecordAgentStartTime argsR).1.length = argsR.length
    ∧ (∀ j arg, argsA.get? j = some arg →
        (api.SetMachineAddresses argsA).1.get? j
          = some (setMachineAddressesSlot api api.authOwner arg)
        ∧ (permDenied api arg.Tag →
            (api.SetMachineAddresses argsA).1.get? j = some (some .errPerm)))
    ∧ (∀ j tag, argsJ.get? j = some tag →
        (api.Jobs argsJ).1.get? j = some (jobsSlot api api.authOwner tag)
        ∧ (permDenied api tag →
            (api.Jobs argsJ).1.get? j = some ⟨[], some .errPerm⟩))
    ∧ (∀ j tag, argsR.get? j = some tag →
        (api.RecordAgentStartTime argsR).1.get? j
          = some (recordAgentStartTimeSlot api api.authOwner tag)
        ∧ (permDenied api tag →
            (api.RecordAgentStartTime argsR).1.get? j = some (some .errPerm))) := by
  have hA : (api.SetMachineAddresses argsA).1
      = argsA.map (setMachineAddressesSlot api api.authOwner) := rfl
  have hJ : (api.Jobs argsJ).1 = argsJ.map (jobsSlot api api.authOwner) := rfl
  have hR : (api.RecordAgentStartTime argsR).1
      = argsR.map (recordAgentStartTimeSlot api api.authOwner) := rfl
  refine ⟨?_, ?_, ?_, ?_, ?_, ?_⟩
  · rw [hA, List.length_map]
  · rw [hJ, List.length_map]
  · rw [hR, List.length_map]
  · intro j arg hj
    have hs : (api.SetMachineAddresses argsA).1.get? j
        = some (setMachineAddressesSlot api api.authOwner arg) := by
      rw [hA, List.get?_map, hj]
      rfl
    refine ⟨hs, fun hperm => ?_⟩
    rw [hs]
    simp [setMachineAddressesSlot, getMachine_permDenied api arg.Tag hperm]
  · intro j tag hj
    have hs : (api.Jobs argsJ).1.get? j = some (jobsSlot api api.authOwner tag) := by
      rw [hJ, List.get?_map, hj]
      rfl
    refine ⟨hs, fun hperm => ?_⟩
    rw [hs]
    simp [jobsSlot, getMachine_permDenied api tag hperm]
  · intro j tag hj
    have hs : (api.RecordAgentStartTime argsR).1.get? j
        = some (recordAgentStartTimeSlot api api.authOwner tag) := by
      rw [hR, List.get?_map, hj]
      rfl
    refine ⟨hs, fun hperm => ?_⟩
    rw [hs]
    simp [recordAgentStartTimeSlot, getMachine_permDenied api tag hperm]

/-- A concrete machiner API used by the witness of C10: machine 0
exists and is the authorized owner, machine 1 parses but belongs to
someone else. -/
def sampleMachinerAPI : MachinerAPI :=
  { parseMachineTag := fun s =>
      if s = "machine-0" then some "0"
      else if s = "machine-1" then some "1"
      else none
    authOwner := fun t => t == "0"
    findEntity := fun t =>
      if t = "0" then .ok { jobs := ["JobHostUnits"], setAddresses := fun _ => none,
                            recordAgentStartTime := none }
      else .error (.notFound t)
    toSpaceAddresses := fun l => .ok l }

/-- Witness for C10: with one unauthorized entity and one unparseable
entity supplied, Jobs returns two result slots, each holding ErrPerm. -/
theorem machiner_per_entity_results_witness :
    (sampleMachinerAPI.Jobs ["machine-1", "bogus"]).1.length = 2
    ∧ (sampleMachinerAPI.Jobs ["machine-1", "bogus"]).1.get? 0
        = some ⟨[], some .errPerm⟩
    ∧ (sampleMachinerAPI.Jobs ["machine-1", "bogus"]).1.get? 1
        = some ⟨[], some .errPerm⟩ :=
  ⟨(machiner_per_entity_results sampleMachinerAPI [] ["machine-1", "bogus"] []).2.1,
    ((machiner_per_entity_results sampleMachinerAPI [] ["machine-1", "bogus"] []).2.2.2.2.1
        0 "machine-1" rfl).2
      (by intro t ht
          simp only [sampleMachinerAPI] at ht ⊢
          cases Option.some.inj ht
          rfl),
    ((machiner_per_entity_results sampleMachinerAPI [] ["machine-1", "bogus"] []).2.2.2.2.1
        1 "bogus" rfl).2
      (by intro t ht
          simp [sampleMachinerAPI] at ht)⟩

end JujuSpec
